import Mathlib

/-!
Verification of the session / transport core of the `system-information-mcp`
server against its design specification.  The Go sources are shallowly
embedded: maps become association lists, `interface{}` payloads become type
parameters, the wall clock and the metrics collector become explicit
parameters, and each handler becomes a pure function from its inputs (and the
session-store state) to its response (and the successor state).
-/

namespace SystemInformationMCP

/-- JSON-RPC `id` values as the Go code sees them: `request["id"]` is an
arbitrary JSON value, copied opaquely into responses.  `null` also stands for
the value a missing key yields (`request["id"]` on a map without the key). -/
inductive JId
  | null
  | num (n : Int)
  | str (s : String)
deriving DecidableEq, Repr

namespace Types

/-- `types.StoredEvent`: one retained event of a session's event log.
`Data interface{}` is embedded as a type parameter `α`. -/
structure StoredEvent (α : Type) where
  id : Nat
  data : α
deriving DecidableEq, Repr

/-- `types.Session`, restricted to the fields the embedded operations read:
`eventCounter`, `storedEvents`, `maxEvents` and the identifier.  The
timestamps (`CreatedAt`, `LastActivity`) and the SSE channel are not
consulted by any embedded operation and are omitted. -/
structure Session (α : Type) where
  sid : String
  eventCounter : Nat
  storedEvents : List (StoredEvent α)
  maxEvents : Nat
deriving DecidableEq, Repr

/-- `types.NewSession`: fresh session with empty log and capacity 100. -/
def NewSession (α : Type) (id : String) : Session α :=
  { sid := id, eventCounter := 0, storedEvents := [], maxEvents := 100 }

/-- `Session.StoreEvent`: increments the counter, appends the event, and
keeps only the last `maxEvents` entries; returns the assigned id. -/
def StoreEvent (s : Session α) (data : α) : Nat × Session α :=
  let counter := s.eventCounter + 1
  let events := s.storedEvents ++ [⟨counter, data⟩]
  let events :=
    if events.length > s.maxEvents then events.drop (events.length - s.maxEvents)
    else events
  (counter, { s with eventCounter := counter, storedEvents := events })

/-- `Session.GetEventsAfter`: the retained events with id strictly greater
than `lastEventID`, in stored order.  (Event ids are ≥ 1, so a negative Go
`int64` argument behaves exactly like `0`.) -/
def GetEventsAfter (s : Session α) (lastEventID : Nat) : List (StoredEvent α) :=
  s.storedEvents.filter (fun e => lastEventID < e.id)

/-- `k` successive `StoreEvent` calls, the `i`-th (1-based) storing `f i`. -/
def storeMany (f : Nat → α) : Nat → Session α → Session α
  | 0, s => s
  | Nat.succ k, s => (StoreEvent (storeMany f k s) (f (k + 1))).2

/-- The ids assigned by the `k` successive `StoreEvent` calls, in call order. -/
def storeTrace (f : Nat → α) : Nat → Session α → List Nat
  | 0, _ => []
  | Nat.succ k, s => storeTrace f k s ++ [(StoreEvent (storeMany f k s) (f (k + 1))).1]

theorem storeMany_maxEvents (f : Nat → α) (k : Nat) (s : Session α) :
    (storeMany f k s).maxEvents = s.maxEvents := by
  induction k with
  | zero => rfl
  | succ k ih => simp only [storeMany, StoreEvent]; exact ih

theorem storeMany_eventCounter (f : Nat → α) (k : Nat) (s : Session α) :
    (storeMany f k s).eventCounter = s.eventCounter + k := by
  induction k with
  | zero => rfl
  | succ k ih => simp only [storeMany, StoreEvent]; omega

theorem storeMany_storedEvents (α : Type) (sid : String) (f : Nat → α) (k : Nat) :
    (storeMany f k (NewSession α sid)).storedEvents
      = (List.range' (k + 1 - min k 100) (min k 100)).map
          (fun i => (⟨i, f i⟩ : StoredEvent α)) := by
  induction k with
  | zero => simp [storeMany, NewSession]
  | succ k ih =>
    have hc : (storeMany f k (NewSession α sid)).eventCounter = k := by
      rw [storeMany_eventCounter]; simp [NewSession]
    have hm : (storeMany f k (NewSession α sid)).maxEvents = 100 := by
      rw [storeMany_maxEvents]; simp [NewSession]
    simp only [storeMany, StoreEvent, hc, hm, ih]
    have hlen : ((List.range' (k + 1 - min k 100) (min k 100)).map
        (fun i => (⟨i, f i⟩ : StoredEvent α))
        ++ [(⟨k + 1, f (k + 1)⟩ : StoredEvent α)]).length = min k 100 + 1 := by
      simp
    rw [hlen]
    by_cases h : k < 100
    · rw [if_neg (by omega)]
      have e1 : k + 1 - min k 100 = 1 := by omega
      have e2 : min k 100 = k := by omega
      have e3 : k + 1 + 1 - min (k + 1) 100 = 1 := by omega
      have e4 : min (k + 1) 100 = k + 1 := by omega
      rw [e1, e2, e3, e4, List.range'_1_concat]
      have e5 : 1 + k = k + 1 := by omega
      rw [e5, List.map_append]
      simp
    · rw [if_pos (by omega)]
      have e5 : min k 100 + 1 - 100 = 1 := by omega
      have e2 : min k 100 = 100 := by omega
      have e4 : min (k + 1) 100 = 100 := by omega
      rw [e5, e2, e4]
      have e6 : k + 1 - 100 = k - 99 := by omega
      have e7 : k + 1 + 1 - 100 = k - 98 := by omega
      rw [e6, e7]
      have e8 : k - 99 + 100 = k + 1 := by omega
      have hcat : (List.range' (k - 99) 100).map (fun i => (⟨i, f i⟩ : StoredEvent α))
            ++ [(⟨k + 1, f (k + 1)⟩ : StoredEvent α)]
          = (List.range' (k - 99) 101).map (fun i => (⟨i, f i⟩ : StoredEvent α)) := by
        conv_rhs => rw [show (101 : Nat) = 100 + 1 from rfl, List.range'_1_concat,
          List.map_append, e8]
        rfl
      rw [hcat]
      have e9 : k - 99 + 1 = k - 98 := by omega
      have hsucc : List.range' (k - 99) 101 = (k - 99) :: List.range' (k - 98) 100 := by
        conv_lhs => rw [show (101 : Nat) = 100 + 1 from rfl, List.range'_succ, e9]
      rw [hsucc]
      simp

theorem storeTrace_spec (α : Type) (sid : String) (f : Nat → α) (k : Nat) :
    storeTrace f k (NewSession α sid) = List.range' 1 k := by
  induction k with
  | zero => simp [storeTrace]
  | succ k ih =>
    have hc : (storeMany f k (NewSession α sid)).eventCounter = k := by
      rw [storeMany_eventCounter]; simp [NewSession]
    simp only [storeTrace, ih, StoreEvent, hc]
    rw [List.range'_1_concat]
    simp
    omega

theorem map_id_filter (x : Nat) (l : List (StoredEvent α)) :
    (l.filter (fun e => x < e.id)).map StoredEvent.id
      = (l.map StoredEvent.id).filter (fun i => x < i) := by
  induction l with
  | nil => rfl
  | cons e t ih =>
    by_cases h : x < e.id
    · simp [List.filter_cons, h, ih]
    · simp [List.filter_cons, h, ih]

/-- C1: starting from a fresh session, `k` calls to `StoreEvent` assign
exactly the ids `1, 2, ..., k`; at most 100 events are retained, namely those
with the largest ids (FIFO eviction), in ascending contiguous id order; and
`GetEventsAfter x` returns exactly the retained events with id `> x`, in
ascending id order, and the empty list whenever `x` is at or beyond the
newest id `k`. -/
theorem c1_event_log (α : Type) (sid : String) (f : Nat → α) (k x : Nat) :
    storeTrace f k (NewSession α sid) = List.range' 1 k ∧
    (storeMany f k (NewSession α sid)).storedEvents.length = min k 100 ∧
    (storeMany f k (NewSession α sid)).storedEvents.map StoredEvent.id
      = List.range' (k + 1 - min k 100) (min k 100) ∧
    (GetEventsAfter (storeMany f k (NewSession α sid)) x).map StoredEvent.id
      = (List.range' (k + 1 - min k 100) (min k 100)).filter (fun i => x < i) ∧
    ((GetEventsAfter (storeMany f k (NewSession α sid)) x).map StoredEvent.id).Pairwise (· < ·) ∧
    (∀ j : Nat, GetEventsAfter (storeMany f k (NewSession α sid)) (k + j) = []) := by
  have he := storeMany_storedEvents α sid f k
  have hids : (storeMany f k (NewSession α sid)).storedEvents.map StoredEvent.id
      = List.range' (k + 1 - min k 100) (min k 100) := by
    rw [he, List.map_map]
    have hcomp : (StoredEvent.id ∘ fun i => (⟨i, f i⟩ : StoredEvent α)) = id := rfl
    rw [hcomp, List.map_id]
  have hafter : ∀ y : Nat, (GetEventsAfter (storeMany f k (NewSession α sid)) y).map StoredEvent.id
      = (List.range' (k + 1 - min k 100) (min k 100)).filter (fun i => y < i) := by
    intro y
    rw [GetEventsAfter, map_id_filter, hids]
  refine ⟨storeTrace_spec α sid f k, ?_, hids, hafter x, ?_, ?_⟩
  · rw [he, List.length_map, List.length_range']
  · rw [hafter x]
    exact (List.pairwise_lt_range' _ _).sublist (List.filter_sublist _) |>.imp (fun h => h)
  · intro j
    have : ∀ e ∈ (storeMany f k (NewSession α sid)).storedEvents, ¬ (k + j < e.id) := by
      intro e hm
      have : e.id ∈ (storeMany f k (NewSession α sid)).storedEvents.map StoredEvent.id :=
        List.mem_map_of_mem _ hm
      rw [hids] at this
      rw [List.mem_range'_1] at this
      omega
    rw [GetEventsAfter, List.filter_eq_nil_iff]
    intro e hm
    simpa using this e hm

/-- The character set of `randomString` (`internal/types/session.go`),
62 characters. -/
def charset : List Char :=
  "abcdefghijklmnopqrstuvwxyzABCDEFGHIJKLMNOPQRSTUVWXYZ0123456789".toList

/-- The wall clock as `generateSessionID` observes it: `secStr` is
`time.Now().Format("20060102_150405_")` and `nanos i` is the
`time.Now().UnixNano()` value read by the `i`-th iteration of
`randomString`'s loop (a non-negative instant; the reading may repeat when
the platform clock is coarser than the call rate). -/
structure Clock where
  secStr : String
  nanos : Nat → Nat

/-- `randomString`: every character is `charset[time.Now().UnixNano() % 62]`
— the wall clock is the only source of variation. -/
def randomString (length : Nat) (nanos : Nat → Nat) : String :=
  String.mk ((List.range length).map fun i => charset.getD (nanos i % 62) 'a')

/-- `generateSessionID`: timestamp-prefixed, clock-derived suffix. -/
def generateSessionID (c : Clock) : String :=
  "session_" ++ c.secStr ++ randomString 8 c.nanos

/-- `types.SessionManager`'s `sessions` map, as an association list keyed by
session id (Go map iteration order is irrelevant to every embedded claim). -/
abbrev SessionManager (α : Type) := List (String × Session α)

/-- Go map assignment `sm.sessions[id] = s`: replaces any existing binding
for `id`. -/
def insertSession (sm : SessionManager α) (id : String) (s : Session α) :
    SessionManager α :=
  (id, s) :: sm.filter (fun p => p.1 ≠ id)

/-- `SessionManager.CreateSession`: generates an id from the clock, inserts a
fresh session under it, returns the id. -/
def CreateSession (c : Clock) (sm : SessionManager α) : String × SessionManager α :=
  let sessionID := generateSessionID c
  (sessionID, insertSession sm sessionID (NewSession α sessionID))

/-- `SessionManager.GetSession`: map lookup.  (The `UpdateActivity` side
effect touches only the unmodelled `LastActivity` timestamp.) -/
def GetSession (sm : SessionManager α) (sessionID : String) : Option (Session α) :=
  sm.lookup sessionID

/-- `SessionManager.RemoveSession`: deletes the binding if present (the
`Close` call only closes the unmodelled SSE channel); removing an absent id
leaves the map as it was. -/
def RemoveSession (sm : SessionManager α) (sessionID : String) : SessionManager α :=
  sm.filter (fun p => p.1 ≠ sessionID)

end Types

namespace Streamable

/-- `streamable.Handler.HandleDelete`: removes the session when a session id
header is present, and unconditionally answers 204 No Content. -/
def HandleDelete (sm : Types.SessionManager α) (sessionID : String) :
    Nat × Types.SessionManager α :=
  if sessionID ≠ "" then (204, Types.RemoveSession sm sessionID)
  else (204, sm)

end Streamable

namespace Legacy

/-- The legacy (`net/http`) revision's `Session`: only the id is consulted by
the embedded operations (`CreatedAt` and the SSE channel are unmodelled). -/
structure Session where
  sid : String
deriving DecidableEq, Repr

/-- The legacy revision's `SessionManager.sessions` map. -/
abbrev SessionManager := List (String × Session)

/-- Legacy `SessionManager.CreateSession`: the fresh `uuid.New().String()`
value is an external collaborator, passed in as `newID`. -/
def CreateSession (newID : String) (sm : SessionManager) : String × SessionManager :=
  (newID, (newID, ⟨newID⟩) :: sm.filter (fun p => p.1 ≠ newID))

/-- Legacy `SessionManager.GetSession`. -/
def GetSession (sm : SessionManager) (id : String) : Option Session :=
  sm.lookup id

/-- Legacy `SessionManager.RemoveSession`. -/
def RemoveSession (sm : SessionManager) (id : String) : SessionManager :=
  sm.filter (fun p => p.1 ≠ id)

/-- Legacy `MCPHandler.handleMCPDelete`: 400 without a session id header,
404 when the session does not resolve, 204 after a successful removal. -/
def handleMCPDelete (sm : SessionManager) (sessionID : String) :
    Nat × SessionManager :=
  if sessionID = "" then (400, sm)
  else
    match GetSession sm sessionID with
    | none => (404, sm)
    | some _ => (204, RemoveSession sm sessionID)

end Legacy

/-- C6 (code evidence): `CreateSession` derives the id entirely from the wall
clock, so two calls whose clock readings coincide (same formatted second,
same `UnixNano % 62` residues — possible on a coarse clock) return the SAME
id, and the second insert overwrites the first session: the store ends up
with a single entry.  This contradicts the claim (and the function's own
doc comment) that generated ids are unique / collision-resistant. -/
theorem c6_create_session_collision :
    (Types.CreateSession (α := Unit) ⟨"20260101_000000_", fun _ => 0⟩ []).1
        = "session_20260101_000000_aaaaaaaa" ∧
    (Types.CreateSession (α := Unit) ⟨"20260101_000000_", fun _ => 0⟩
        (Types.CreateSession (α := Unit) ⟨"20260101_000000_", fun _ => 0⟩ []).2).1
        = "session_20260101_000000_aaaaaaaa" ∧
    (Types.CreateSession (α := Unit) ⟨"20260101_000000_", fun _ => 0⟩
        (Types.CreateSession (α := Unit) ⟨"20260101_000000_", fun _ => 0⟩ []).2).2.length
        = 1 := by
  decide

theorem lookup_none_filter_ne {β : Type} (sm : List (String × β)) (sid : String)
    (h : sm.lookup sid = none) : sm.filter (fun p => p.1 ≠ sid) = sm := by
  induction sm with
  | nil => rfl
  | cons p t ih =>
    rw [List.lookup] at h
    by_cases hp : p.1 = sid
    · simp [hp] at h
    · have hbeq : (sid == p.1) = false := by
        simp [beq_iff_eq]
        exact fun hq => hp hq.symm
      rw [hbeq] at h
      simp only [List.filter_cons]
      rw [if_pos (by simpa using hp), ih h]

theorem filter_ne_idem {β : Type} (sm : List (String × β)) (sid : String) :
    (sm.filter (fun p => p.1 ≠ sid)).filter (fun p => p.1 ≠ sid)
      = sm.filter (fun p => p.1 ≠ sid) := by
  rw [List.filter_filter]
  congr 1
  funext p
  by_cases hp : p.1 = sid <;> simp [hp]

/-- C7 (counterexample): the legacy DELETE endpoint does NOT always answer
204 — with a session id that does not exist it answers 404 (and with an
empty session id header it answers 400). -/
theorem c7_legacy_delete_not_204 :
    (Legacy.handleMCPDelete [] "session-gone").1 = 404 ∧
    (Legacy.handleMCPDelete [] "").1 = 400 := by
  decide

/-- C7 (amended): the streamable DELETE endpoint always answers 204, even for
an unknown or already-removed session id; `RemoveSession` on an id that does
not resolve leaves the table unchanged; and deleting twice equals deleting
once.  The legacy (`net/http`) DELETE endpoint instead answers 400 without a
session id header and 404 for an unknown session. -/
theorem c7_delete_idempotent (α : Type) (sm : Types.SessionManager α)
    (sid : String) (hmiss : Types.GetSession sm sid = none) :
    (Streamable.HandleDelete sm sid).1 = 204 ∧
    Types.RemoveSession sm sid = sm ∧
    (∀ sm' : Types.SessionManager α, ∀ s : String,
      Types.RemoveSession (Types.RemoveSession sm' s) s = Types.RemoveSession sm' s) ∧
    (∀ sm' : Types.SessionManager α, ∀ s : String,
      Streamable.HandleDelete (Streamable.HandleDelete sm' s).2 s
        = Streamable.HandleDelete sm' s) ∧
    (∀ lm : Legacy.SessionManager, ∀ s : String, s ≠ "" →
      Legacy.GetSession lm s = none → (Legacy.handleMCPDelete lm s).1 = 404) := by
  refine ⟨?_, ?_, ?_, ?_, ?_⟩
  · by_cases h : sid = "" <;> simp [Streamable.HandleDelete, h]
  · exact lookup_none_filter_ne sm sid hmiss
  · intro sm' s
    exact filter_ne_idem sm' s
  · intro sm' s
    by_cases h : s = ""
    · simp [Streamable.HandleDelete, h]
    · simp only [Streamable.HandleDelete, if_pos h]
      simp only [Types.RemoveSession, filter_ne_idem]
  · intro lm s hs hmiss'
    simp [Legacy.handleMCPDelete, hs, hmiss']

/-- C7 witness: the amended statement applied to the empty store and the id
"gone". -/
theorem c7_delete_idempotent_witness :
    (Streamable.HandleDelete ([] : Types.SessionManager Unit) "gone").1 = 204 ∧
    Types.RemoveSession ([] : Types.SessionManager Unit) "gone" = [] := by
  have h := c7_delete_idempotent Unit [] "gone" (by decide)
  exact ⟨h.1, h.2.1⟩

/-- The `arguments` object of a `tools/call`, as far as any handler reads it:
the `duration` and `interval` keys, `some` only when present with a string
value (the Go type assertions). -/
structure ToolArgs where
  duration : Option String
  interval : Option String
deriving DecidableEq, Repr

/-- The `params` object of an inbound message, as far as any handler reads
it.  `name` is `some` only when the key holds a string.  The client-proposed
`protocolVersion` is carried so that theorems can quantify over it; no
embedded handler ever reads it. -/
structure MParams where
  name : Option String
  arguments : Option ToolArgs
  protocolVersion : Option String
deriving DecidableEq, Repr

/-- The `method` key of a wire message: absent, present with a non-string
value (the type assertion `request["method"].(string)` then fails, but the
raw key-presence check `_, hasMethod := msg["method"]` still sees it), or
present with a string value. -/
inductive MethodKey
  | absent
  | nonString
  | str (m : String)
deriving DecidableEq, Repr

/-- `true` when the `method` key is present at all, whatever the type of
its value — what `_, hasMethod := msg["method"]` observes. -/
def MethodKey.isPresent : MethodKey → Bool
  | .absent => false
  | _ => true

/-- An inbound wire message (`map[string]interface{}`): `method` is the
state of the `method` key; `id = some v` when the `id` key is present — `v`
may be `JId.null`, as an explicit JSON `null` is; `params` is `some` only
when the key holds an object. -/
structure Message where
  method : MethodKey
  id : Option JId
  params : Option MParams
deriving DecidableEq, Repr

/-- The result of `request["method"].(string)` together with its `ok` flag:
`some m` exactly when the `method` key holds the string `m`. -/
def Message.methodString (m : Message) : Option String :=
  match m.method with
  | .str s => some s
  | _ => none

/-- `request["id"]` as Go reads it: a missing key yields the nil interface,
which serializes as JSON `null`. -/
def Message.reqId (m : Message) : JId := m.id.getD .null

/-- `request["id"] != nil` (legacy dispatcher): the key is present AND its
value is not JSON `null` (both a missing key and an explicit `null` read as
the nil interface in Go). -/
def Message.idNonNil (m : Message) : Bool :=
  match m.id with
  | some .null => false
  | some _ => true
  | none => false

/-- A result payload, by shape.  Static data no claim consults (capability
maps, tool descriptions and input schemas) is omitted; the tool catalog is
carried as the list of tool names. -/
inductive RResult
  | initResult (protocolVersion serverName serverVersion : String)
  | toolsList (toolNames : List String)
  | toolContent (text : String) (isError : Option Bool)
deriving DecidableEq, Repr

/-- A response is a result or an error object (JSON-RPC code and message). -/
inductive RpcPayload
  | result (r : RResult)
  | error (code : Int) (message : String)
deriving DecidableEq, Repr

/-- An outbound response envelope.  `sessionId` is the `result.sessionId`
field the streamable POST handler injects into `initialize` responses. -/
structure Response where
  id : JId
  payload : RpcPayload
  sessionId : Option String := none
deriving DecidableEq, Repr

/-- `true` exactly when the payload is a result (`response["result"] != nil`
in the Go handlers). -/
def Response.isResult (r : Response) : Bool :=
  match r.payload with
  | .result _ => true
  | .error _ _ => false

namespace MCPv1

/-- `FiberMCPHandler` state: the session table plus the
`lastCreatedSessionID` cell (`sync.Map` holding at most the one key
`"sessionID"`). -/
structure HandlerState (α : Type) where
  sessions : Types.SessionManager α
  lastCreatedSessionID : Option String
deriving DecidableEq, Repr

/-- `FiberMCPHandler.handleInitializeRequest` (streamable-era variant):
always creates a fresh session — the inbound session id is never examined —
stores its id in `lastCreatedSessionID`, and returns a result with the
constant protocol version `"2024-11-05"`. -/
def handleInitializeRequest (c : Types.Clock) (st : HandlerState α)
    (request : Message) : Response × HandlerState α :=
  let created := Types.CreateSession c st.sessions
  ({ id := request.reqId,
     payload := .result (.initResult "2024-11-05" "mcp-system-info" "1.0.0") },
   { sessions := created.2, lastCreatedSessionID := some created.1 })

/-- `FiberMCPHandler.handleToolsListRequest`: static catalog with the single
tool `get_system_info`. -/
def handleToolsListRequest (request : Message) : Response :=
  { id := request.reqId, payload := .result (.toolsList ["get_system_info"]) }

/-- `FiberMCPHandler.handleToolCallRequest`.  `collect` is the
`sysinfo.Get()` collaborator: `.ok text` carries the formatted system
information, `.error e` the failure message. -/
def handleToolCallRequest (collect : Except String String) (request : Message) :
    Response :=
  match request.params with
  | none => { id := request.reqId, payload := .error (-32602) "Invalid params" }
  | some params =>
    match params.name with
    | none => { id := request.reqId, payload := .error (-32602) "Missing tool name" }
    | some toolName =>
      if toolName = "get_system_info" then
        match collect with
        | .error e =>
          { id := request.reqId,
            payload := .error (-32603) ("Error getting system information: " ++ e) }
        | .ok text =>
          { id := request.reqId, payload := .result (.toolContent text (some false)) }
      else { id := request.reqId, payload := .error (-32601) "Tool not found" }

/-- `FiberMCPHandler.handleJSONRPCMessage` (streamable-era variant): the
dispatcher.  Returns the response (or none for notification-shaped paths)
and the successor handler state. -/
def handleJSONRPCMessage (c : Types.Clock) (collect : Except String String)
    (st : HandlerState α) (request : Message) (sessionID : String) :
    Option Response × HandlerState α :=
  match request.methodString with
  | none => (none, st)
  | some method =>
    if method = "initialize" then
      let r := handleInitializeRequest c st request
      (some r.1, r.2)
    else
      -- Go: `session, exists := sm.GetSession(sessionID); if !exists { ... }`
      if (Types.GetSession st.sessions sessionID).isNone then
        if request.id.isSome then
          (some { id := request.reqId, payload := .error (-32001) "Session not found" }, st)
        else (none, st)
      else
        if method = "tools/list" then
          if request.id.isSome then (some (handleToolsListRequest request), st)
          else (none, st)
        else if method = "tools/call" then
          if request.id.isSome then (some (handleToolCallRequest collect request), st)
          else (none, st)
        else
          if request.id.isSome then
            (some { id := request.reqId, payload := .error (-32601) "Method not found" }, st)
          else (none, st)

end MCPv1

namespace Streamable

/-- The JSON body `HandleGet` returns for a non-SSE GET (endpoint map
omitted as static data). -/
structure ServerInfo where
  status : String
  message : String
  version : String
  protocol : String
  framework : String
deriving DecidableEq, Repr

/-- What a streamable GET produces. -/
inductive GetOutcome
  | sseStream
  | info (body : ServerInfo)
deriving DecidableEq, Repr

/-- `streamable.Handler.HandleGet`: `acceptsSSE` is the value of
`strings.Contains(acceptHeader, "text/event-stream")`. -/
def HandleGet (acceptsSSE : Bool) : GetOutcome :=
  if acceptsSSE then .sseStream
  else .info
    { status := "ok", message := "MCP System Info Server is running",
      version := "1.0.0", protocol := "2025-03-26", framework := "Fiber v2.52.8" }

end Streamable

namespace Legacy

/-- Legacy `MCPHandler` state: sessions plus the `lastCreatedSessionID`
cell. -/
structure HandlerState where
  sessions : SessionManager
  lastCreatedSessionID : Option String
deriving DecidableEq, Repr

/-- Legacy `MCPHandler.handleInitializeRequest`: creates a session (the
fresh UUID is the `newID` collaborator value), stores it in
`lastCreatedSessionID`, answers with protocol version `"2025-03-26"`. -/
def handleInitializeRequest (newID : String) (st : HandlerState)
    (request : Message) : Response × HandlerState :=
  let created := CreateSession newID st.sessions
  ({ id := request.reqId,
     payload := .result (.initResult "2025-03-26" "System Info Server" "1.0.0") },
   { sessions := created.2, lastCreatedSessionID := some created.1 })

/-- Legacy `MCPHandler.handleToolsListRequest`: static catalog with
`get_system_info`; answers regardless of whether the message carried an
id. -/
def handleToolsListRequest (request : Message) : Response :=
  { id := request.reqId, payload := .result (.toolsList ["get_system_info"]) }

/-- Legacy `MCPHandler.handleToolCallRequest`: `-32602` for non-object
params, `-32601` unless the tool name is the string `get_system_info`,
then the collaborator result (`.ok text` is the marshalled system
information). -/
def handleToolCallRequest (collect : Except String String) (request : Message) :
    Response :=
  match request.params with
  | none => { id := request.reqId, payload := .error (-32602) "Неверные параметры" }
  | some params =>
    if params.name = some "get_system_info" then
      match collect with
      | .error e => { id := request.reqId, payload := .error (-32603) e }
      | .ok text => { id := request.reqId, payload := .result (.toolContent text none) }
    else { id := request.reqId, payload := .error (-32601) "Неизвестный инструмент" }

/-- The tail of legacy `handleJSONRPCMessage` after the session-id fixup:
session check, then the method switch. -/
def dispatchMethod (collect : Except String String) (st : HandlerState)
    (request : Message) (method : String) (sessionID : String) :
    Option Response × HandlerState :=
  if (GetSession st.sessions sessionID).isNone ∧ request.idNonNil then
    (some { id := request.reqId, payload := .error (-32600) "Неверный Mcp-Session-Id" }, st)
  else
    if method = "initialized" then (none, st)
    else if method = "tools/list" then (some (handleToolsListRequest request), st)
    else if method = "tools/call" then (some (handleToolCallRequest collect request), st)
    else if request.idNonNil then
      (some { id := request.reqId, payload := .error (-32601) "Метод не найден" }, st)
    else (none, st)

/-- Legacy `MCPHandler.handleJSONRPCMessage`: rejects `initialize` that
carries a session id with `-32600`; auto-provisions a session for
`tools/list` / `tools/call` arriving without one; otherwise errors on
id-bearing messages without a session. -/
def handleJSONRPCMessage (newID : String) (collect : Except String String)
    (st : HandlerState) (request : Message) (sessionID : String) :
    Option Response × HandlerState :=
  match request.methodString with
  | none => (none, st)
  | some method =>
    if method = "initialize" then
      if sessionID ≠ "" then
        (some { id := request.reqId,
                payload := .error (-32600) "Initialize не должен содержать Mcp-Session-Id" },
         st)
      else
        let r := handleInitializeRequest newID st request
        (some r.1, r.2)
    else if sessionID = "" then
      if method = "tools/list" ∨ method = "tools/call" then
        let created := CreateSession newID st.sessions
        dispatchMethod collect { sessions := created.2, lastCreatedSessionID := some created.1 }
          request method created.1
      else if request.idNonNil then
        (some { id := request.reqId, payload := .error (-32600) "Отсутствует Mcp-Session-Id" }, st)
      else dispatchMethod collect st request method sessionID
    else dispatchMethod collect st request method sessionID

end Legacy

theorem toolCall_id_v1 (collect : Except String String) (msg : Message) :
    (MCPv1.handleToolCallRequest collect msg).id = msg.reqId := by
  obtain ⟨method, id, params⟩ := msg
  rcases params with _ | p
  · rfl
  · rcases hn : p.name with _ | n
    · simp [MCPv1.handleToolCallRequest, hn]
    · by_cases h : n = "get_system_info"
      · rcases collect with e | t <;> simp [MCPv1.handleToolCallRequest, hn, h]
      · simp [MCPv1.handleToolCallRequest, hn, h]

theorem dispatch_v1_request_id (α : Type) (c : Types.Clock)
    (collect : Except String String) (st : MCPv1.HandlerState α) (msg : Message)
    (sid : String) (m : String) (i : JId)
    (hm : msg.methodString = some m) (hi : msg.id = some i) :
    ∃ r, (MCPv1.handleJSONRPCMessage c collect st msg sid).1 = some r ∧ r.id = i := by
  have hreq : msg.reqId = i := by simp [Message.reqId, hi]
  have hsome : msg.id.isSome = true := by simp [hi]
  simp only [MCPv1.handleJSONRPCMessage, hm]
  by_cases h0 : m = "initialize"
  · rw [if_pos h0]
    exact ⟨_, rfl, by simp [MCPv1.handleInitializeRequest, hreq]⟩
  · rw [if_neg h0]
    by_cases hs : (Types.GetSession st.sessions sid).isNone = true
    · rw [if_pos hs, if_pos hsome]
      exact ⟨_, rfl, by simp [hreq]⟩
    · rw [if_neg hs]
      by_cases h1 : m = "tools/list"
      · rw [if_pos h1, if_pos hsome]
        exact ⟨_, rfl, by simp [MCPv1.handleToolsListRequest, hreq]⟩
      · rw [if_neg h1]
        by_cases h2 : m = "tools/call"
        · rw [if_pos h2, if_pos hsome]
          exact ⟨_, rfl, by rw [toolCall_id_v1, hreq]⟩
        · rw [if_neg h2, if_pos hsome]
          exact ⟨_, rfl, by simp [hreq]⟩

theorem dispatch_v1_notification_none (α : Type) (c : Types.Clock)
    (collect : Except String String) (st : MCPv1.HandlerState α) (msg : Message)
    (sid : String) (m : String)
    (hm : msg.methodString = some m) (hne : m ≠ "initialize") (hid : msg.id = none) :
    (MCPv1.handleJSONRPCMessage c collect st msg sid).1 = none := by
  have hns : ¬ (msg.id.isSome = true) := by simp [hid]
  simp only [MCPv1.handleJSONRPCMessage, hm]
  rw [if_neg hne]
  by_cases hs : (Types.GetSession st.sessions sid).isNone = true
  · rw [if_pos hs, if_neg hns]
  · rw [if_neg hs]
    by_cases h1 : m = "tools/list"
    · rw [if_pos h1, if_neg hns]
    · rw [if_neg h1]
      by_cases h2 : m = "tools/call"
      · rw [if_pos h2, if_neg hns]
      · rw [if_neg h2, if_neg hns]

theorem dispatch_v1_init_path (α : Type) (c : Types.Clock)
    (collect : Except String String) (st : MCPv1.HandlerState α) (msg : Message)
    (sid : String) (hm : msg.methodString = some "initialize") :
    MCPv1.handleJSONRPCMessage c collect st msg sid
      = (some { id := msg.reqId,
                payload := .result (.initResult "2024-11-05" "mcp-system-info" "1.0.0") },
         { sessions := Types.insertSession st.sessions (Types.generateSessionID c)
             (Types.NewSession α (Types.generateSessionID c)),
           lastCreatedSessionID := some (Types.generateSessionID c) }) := by
  simp only [MCPv1.handleJSONRPCMessage, hm]
  simp [MCPv1.handleInitializeRequest, Types.CreateSession]

/-- C3 (counterexample): an `initialize` NOTIFICATION — `method` present, no
`id` — still gets a full response (with a null id): the streamable Fiber
dispatcher never checks for an id on the initialize path. -/
theorem c3_initialize_notification_gets_response :
    (MCPv1.handleJSONRPCMessage (α := Unit) ⟨"20260101_000000_", fun _ => 0⟩ (.ok "info")
        ⟨[], none⟩ ⟨.str "initialize", none, none⟩ "").1
      = some { id := JId.null,
               payload := .result (.initResult "2024-11-05" "mcp-system-info" "1.0.0") } := by
  decide

/-- C3 (amended): every request (`method` and `id` both present) receives
exactly one non-null response carrying the request's id; a notification
(no `id`) receives no response for every method EXCEPT `initialize`, which
is handled like a request and yields a response with a null id. -/
theorem c3_request_response_correlation (α : Type) (c : Types.Clock)
    (collect : Except String String) (st : MCPv1.HandlerState α) (msg : Message)
    (sid : String) :
    (∀ m i, msg.methodString = some m → msg.id = some i →
      ∃ r, (MCPv1.handleJSONRPCMessage c collect st msg sid).1 = some r ∧ r.id = i) ∧
    (∀ m, msg.methodString = some m → m ≠ "initialize" → msg.id = none →
      (MCPv1.handleJSONRPCMessage c collect st msg sid).1 = none) ∧
    (msg.methodString = some "initialize" → msg.id = none →
      ∃ r, (MCPv1.handleJSONRPCMessage c collect st msg sid).1 = some r ∧ r.id = JId.null) := by
  refine ⟨?_, ?_, ?_⟩
  · intro m i hm hi
    exact dispatch_v1_request_id α c collect st msg sid m i hm hi
  · intro m hm hne hid
    exact dispatch_v1_notification_none α c collect st msg sid m hm hne hid
  · intro hm hid
    refine ⟨{ id := msg.reqId,
              payload := .result (.initResult "2024-11-05" "mcp-system-info" "1.0.0") }, ?_, ?_⟩
    · rw [dispatch_v1_init_path α c collect st msg sid hm]
    · simp [Message.reqId, hid]

/-- C3 witness: a `tools/list` request with id 7 on a store that resolves
the session gets exactly one response with id 7. -/
theorem c3_request_response_correlation_witness :
    ∃ r, (MCPv1.handleJSONRPCMessage (α := Unit) ⟨"s", fun _ => 0⟩ (.ok "info")
        ⟨[("sess1", Types.NewSession Unit "sess1")], none⟩
        ⟨.str "tools/list", some (.num 7), none⟩ "sess1").1 = some r ∧ r.id = .num 7 :=
  (c3_request_response_correlation Unit ⟨"s", fun _ => 0⟩ (.ok "info")
      ⟨[("sess1", Types.NewSession Unit "sess1")], none⟩
      ⟨.str "tools/list", some (.num 7), none⟩ "sess1").1 "tools/list" (.num 7) rfl rfl

/-- C4: for a non-`initialize` message whose session id does not resolve,
the streamable Fiber dispatcher answers the session-not-found error
(code `-32001`) carrying the message's id when one is present, drops
notifications silently, leaves the session table untouched, and invokes no
tool handler: the outcome is independent of the metrics collector. -/
theorem c4_session_absent (α : Type) (c : Types.Clock)
    (collect collect' : Except String String) (st : MCPv1.HandlerState α)
    (msg : Message) (sid : String) (m : String)
    (hm : msg.methodString = some m) (hne : m ≠ "initialize")
    (hmiss : Types.GetSession st.sessions sid = none) :
    (∀ i, msg.id = some i →
      (MCPv1.handleJSONRPCMessage c collect st msg sid).1
        = some { id := i, payload := .error (-32001) "Session not found" }) ∧
    (msg.id = none → (MCPv1.handleJSONRPCMessage c collect st msg sid).1 = none) ∧
    MCPv1.handleJSONRPCMessage c collect st msg sid
      = MCPv1.handleJSONRPCMessage c collect' st msg sid ∧
    (MCPv1.handleJSONRPCMessage c collect st msg sid).2 = st := by
  have key : ∀ col : Except String String,
      MCPv1.handleJSONRPCMessage c col st msg sid
        = if msg.id.isSome
          then (some { id := msg.reqId, payload := .error (-32001) "Session not found" }, st)
          else (none, st) := by
    intro col
    have hmiss' : (Types.GetSession st.sessions sid).isNone = true := by
      rw [hmiss]; rfl
    simp only [MCPv1.handleJSONRPCMessage, hm]
    rw [if_neg hne, if_pos hmiss']
  refine ⟨?_, ?_, ?_, ?_⟩
  · intro i hi
    rw [key collect]
    simp [hi, Message.reqId]
  · intro hi
    rw [key collect]
    simp [hi]
  · rw [key collect, key collect']
  · rw [key collect]
    by_cases h : msg.id.isSome <;> simp [h]

/-- C4 witness: a `tools/list` request with id 3 against an empty store. -/
theorem c4_session_absent_witness :
    (MCPv1.handleJSONRPCMessage (α := Unit) ⟨"s", fun _ => 0⟩ (.ok "i")
        ⟨[], none⟩ ⟨.str "tools/list", some (.num 3), none⟩ "nope").1
      = some { id := .num 3, payload := .error (-32001) "Session not found" } :=
  (c4_session_absent Unit ⟨"s", fun _ => 0⟩ (.ok "i") (.error "e") ⟨[], none⟩
      ⟨.str "tools/list", some (.num 3), none⟩ "nope" "tools/list" rfl (by decide) rfl).1
    (.num 3) rfl

/-- C2 (counterexample): the streamable Fiber dispatcher does NOT reject an
`initialize` that carries a session id: it answers with a RESULT (never an
error) and creates a fresh session — the store grows from 1 to 2 entries. -/
theorem c2_fiber_initialize_not_rejected :
    (MCPv1.handleJSONRPCMessage (α := Unit) ⟨"20260101_000000_", fun _ => 0⟩ (.ok "info")
        ⟨[("sess_existing", Types.NewSession Unit "sess_existing")], none⟩
        ⟨.str "initialize", some (.num 1), none⟩ "sess_existing").1
      = some { id := .num 1,
               payload := .result (.initResult "2024-11-05" "mcp-system-info" "1.0.0") } ∧
    (MCPv1.handleJSONRPCMessage (α := Unit) ⟨"20260101_000000_", fun _ => 0⟩ (.ok "info")
        ⟨[("sess_existing", Types.NewSession Unit "sess_existing")], none⟩
        ⟨.str "initialize", some (.num 1), none⟩ "sess_existing").2.sessions.length = 2 := by
  decide

/-- C2 (amended): only the LEGACY (`net/http`) dispatcher implements the
rejection rule — `initialize` carrying a session id is answered with error
`-32600` and the state is untouched, while `initialize` without one creates
a session whose id is immediately usable for `tools/list`.  The STREAMABLE
Fiber dispatcher performs no such check: `initialize` always succeeds with a
result and creates a fresh session even when a session id is already set
(the new id, from `lastCreatedSessionID`, is likewise immediately usable). -/
theorem c2_initialize_session_rule
    (newID newID2 : String) (collect collect2 : Except String String)
    (lst : Legacy.HandlerState) (msg msg2 : Message) (sid : String)
    (α : Type) (c : Types.Clock) (st : MCPv1.HandlerState α)
    (hm : msg.methodString = some "initialize") (hm2 : msg2.methodString = some "tools/list")
    (hnid : newID ≠ "") (hi2 : msg2.id.isSome = true) :
    (sid ≠ "" →
      Legacy.handleJSONRPCMessage newID collect lst msg sid
        = (some { id := msg.reqId,
                  payload := .error (-32600) "Initialize не должен содержать Mcp-Session-Id" },
           lst)) ∧
    (Legacy.handleJSONRPCMessage newID collect lst msg "").1
        = some { id := msg.reqId,
                 payload := .result (.initResult "2025-03-26" "System Info Server" "1.0.0") } ∧
    (Legacy.handleJSONRPCMessage newID2 collect2
        (Legacy.handleJSONRPCMessage newID collect lst msg "").2 msg2 newID).1
        = some { id := msg2.reqId, payload := .result (.toolsList ["get_system_info"]) } ∧
    MCPv1.handleJSONRPCMessage c collect st msg sid
      = (some { id := msg.reqId,
                payload := .result (.initResult "2024-11-05" "mcp-system-info" "1.0.0") },
         { sessions := Types.insertSession st.sessions (Types.generateSessionID c)
             (Types.NewSession α (Types.generateSessionID c)),
           lastCreatedSessionID := some (Types.generateSessionID c) }) ∧
    (MCPv1.handleJSONRPCMessage c collect2 (MCPv1.handleJSONRPCMessage c collect st msg sid).2
        msg2 (Types.generateSessionID c)).1
        = some { id := msg2.reqId, payload := .result (.toolsList ["get_system_info"]) } := by
  have hinit : Legacy.handleJSONRPCMessage newID collect lst msg ""
      = (some { id := msg.reqId,
                payload := .result (.initResult "2025-03-26" "System Info Server" "1.0.0") },
         { sessions := (newID, ⟨newID⟩) :: lst.sessions.filter (fun p => p.1 ≠ newID),
           lastCreatedSessionID := some newID }) := by
    simp only [Legacy.handleJSONRPCMessage, hm]
    simp [Legacy.handleInitializeRequest, Legacy.CreateSession]
  refine ⟨?_, ?_, ?_, ?_, ?_⟩
  · intro hsid
    simp only [Legacy.handleJSONRPCMessage, hm]
    simp [hsid]
  · rw [hinit]
  · rw [hinit]
    simp only [Legacy.handleJSONRPCMessage, hm2]
    rw [if_neg (by decide), if_neg hnid]
    unfold Legacy.dispatchMethod
    have hlook : Legacy.GetSession
        ((newID, (⟨newID⟩ : Legacy.Session)) :: lst.sessions.filter (fun p => p.1 ≠ newID))
        newID = some ⟨newID⟩ := by
      simp [Legacy.GetSession, List.lookup]
    rw [hlook]
    simp [Legacy.handleToolsListRequest]
  · exact dispatch_v1_init_path α c collect st msg sid hm
  · rw [dispatch_v1_init_path α c collect st msg sid hm]
    simp only [MCPv1.handleJSONRPCMessage, hm2]
    rw [if_neg (by decide)]
    have hlook : Types.GetSession
        (Types.insertSession st.sessions (Types.generateSessionID c)
          (Types.NewSession α (Types.generateSessionID c)))
        (Types.generateSessionID c)
        = some (Types.NewSession α (Types.generateSessionID c)) := by
      simp [Types.GetSession, Types.insertSession, List.lookup]
    rw [if_neg (by simp [hlook])]
    rw [if_pos trivial, if_pos hi2]
    simp [MCPv1.handleToolsListRequest]

/-- C2 witness: the legacy dispatcher rejects a concrete `initialize` with
session id "sess1", leaving the empty state unchanged. -/
theorem c2_initialize_session_rule_witness :
    Legacy.handleJSONRPCMessage "uuid-1" (.ok "info") ⟨[], none⟩
        ⟨.str "initialize", some (.num 1), none⟩ "sess1"
      = (some { id := .num 1,
                payload := .error (-32600) "Initialize не должен содержать Mcp-Session-Id" },
         ⟨[], none⟩) :=
  (c2_initialize_session_rule "uuid-1" "uuid-2" (.ok "info") (.ok "info") ⟨[], none⟩
      ⟨.str "initialize", some (.num 1), none⟩ ⟨.str "tools/list", some (.num 2), none⟩
      "sess1" Unit ⟨"s", fun _ => 0⟩ ⟨[], none⟩ rfl rfl (by decide) rfl).1 (by decide)

namespace Streamable

/-- What a streamable POST answers: the HTTP-level outcome. -/
inductive PostOutcome
  | notAcceptable
  | accepted
  | jsonSingle (r : Response)
  | jsonArray (rs : List Response)
  | sseStream (rs : List Response)
  | okEmpty
deriving DecidableEq, Repr

/-- `hasRequests` as `HandlePost` computes it: some entry has both an `id`
key and a `method` key — RAW key presence, whatever the method value's
type (`onlyResponsesOrNotifications` is its negation — the code sets the
two flags together). -/
def hasRequests (messages : List Message) : Bool :=
  messages.any fun m => m.id.isSome && m.method.isPresent

/-- Spec-side description of the batch entries for which the POST handler
ends up collecting a response: the `method` key holds a STRING that is
either `initialize` or is accompanied by an `id` — i.e. all string-method
requests plus `initialize` notifications.  An entry whose `method` key
holds a non-string value counts as a request for the batch classification
but never collects a response (the dispatcher's type assertion fails). -/
def respondedEntry (m : Message) : Bool :=
  m.methodString.isSome
    && (decide (m.methodString = some "initialize") || m.id.isSome)

/-- The notifications-only path of `HandlePost`: every message still goes
through the dispatcher (for its side effects — an `initialize` notification
creates a session); the results are discarded. -/
def processNotifications (c : Types.Clock) (collect : Except String String)
    (sessionID : String) :
    MCPv1.HandlerState α → List Message → MCPv1.HandlerState α
  | st, [] => st
  | st, msg :: rest =>
      processNotifications c collect sessionID
        (MCPv1.handleJSONRPCMessage c collect st msg sessionID).2 rest

/-- The request path of `HandlePost`: every message with a `method` goes
through the dispatcher; non-nil responses are appended in input order.  An
`initialize` response with a result gets the freshly created session id
(from `lastCreatedSessionID`) injected into its result and echoed as the
`Mcp-Session-Id` response header, and the cell is cleared.  Returns the
collected responses, the header value, and the final state. -/
def collectResponses (c : Types.Clock) (collect : Except String String)
    (sessionID : String) :
    MCPv1.HandlerState α → Option String → List Message →
    List Response × Option String × MCPv1.HandlerState α
  | st, hdr, [] => ([], hdr, st)
  | st, hdr, msg :: rest =>
    if msg.method.isPresent then
      -- Go: `method, _ := msg["method"].(string)` — the ok flag is ignored,
      -- a non-string method reads as ""
      let method := msg.methodString.getD ""
      let d := MCPv1.handleJSONRPCMessage c collect st msg sessionID
      match d.1 with
      | none => collectResponses c collect sessionID d.2 hdr rest
      | some response =>
        if method = "initialize" ∧ response.isResult then
          match d.2.lastCreatedSessionID with
          | some newSessionID =>
            let tail := collectResponses c collect sessionID
              { d.2 with lastCreatedSessionID := none } (some newSessionID) rest
            ({ response with sessionId := some newSessionID } :: tail.1, tail.2)
          | none =>
            let tail := collectResponses c collect sessionID d.2 hdr rest
            (response :: tail.1, tail.2)
        else
          let tail := collectResponses c collect sessionID d.2 hdr rest
          (response :: tail.1, tail.2)
    else collectResponses c collect sessionID st hdr rest

/-- `streamable.Handler.HandlePost` after body parsing: `supportsJSON` and
`supportsSSE` are the `strings.Contains` results on the Accept header.
Returns the outcome, the `Mcp-Session-Id` response header when set, and the
successor state. -/
def HandlePost (c : Types.Clock) (collect : Except String String)
    (supportsJSON supportsSSE : Bool) (messages : List Message)
    (sessionID : String) (st : MCPv1.HandlerState α) :
    PostOutcome × Option String × MCPv1.HandlerState α :=
  if ¬supportsJSON ∧ ¬supportsSSE then (.notAcceptable, none, st)
  else if ¬(hasRequests messages) then
    (.accepted, none, processNotifications c collect sessionID st messages)
  else if hasRequests messages then
    let r := collectResponses c collect sessionID st none messages
    if supportsSSE ∧ r.1.length > 0 then (.sseStream r.1, r.2.1, r.2.2)
    else
      match r.1 with
      | [single] => (.jsonSingle single, r.2.1, r.2.2)
      | rs => (.jsonArray rs, r.2.1, r.2.2)
  else (.okEmpty, none, st)

end Streamable

deriving instance DecidableEq for Except

namespace MCPv2

/-- One tick observation of the SSE streaming monitor loop
(`handleSystemMonitorStream` in the streamable-era handler): whether
`time.Now().After(endTime)` held when the tick fired, and the collector
outcome for that tick (`.ok sample` carries the formatted cpu/memory
values).  The loop's `default` branch (a 10 ms sleep) emits nothing and is
not an observation; the loop has no cancellation branch at all. -/
structure TickObs where
  afterDeadline : Bool
  collect : Except String String
deriving DecidableEq, Repr

/-- The SSE frames the monitor stream writes: the initial `phase:"start"`
notification, one `tool_progress` notification per processed tick (metrics
on success, the error string on a failed collection), the terminal result
with `total_samples`, or a synchronous parse-error frame. -/
inductive MonitorEvent
  | start (duration interval : String)
  | progress (iteration : Nat) (outcome : Except String String)
  | completed (id : JId) (totalSamples : Nat)
  | invalidDuration
  | invalidInterval
deriving DecidableEq, Repr

/-- `true` exactly on `tool_progress` iteration notifications. -/
def MonitorEvent.isProgress : MonitorEvent → Bool
  | .progress _ _ => true
  | _ => false

/-- `true` exactly on the terminal completed result. -/
def MonitorEvent.isCompleted : MonitorEvent → Bool
  | .completed _ _ => true
  | _ => false

/-- The ticker loop of `handleSystemMonitorStream`: on each tick, first the
deadline check (emit the terminal result with `total_samples = iteration`
and stop), else increment the counter and emit one progress notification —
an error notification on a failed collection, which never aborts the run. -/
def monitorLoop (requestID : JId) : Nat → List TickObs → List MonitorEvent
  | _, [] => []
  | iteration, t :: rest =>
    if t.afterDeadline then [.completed requestID iteration]
    else .progress (iteration + 1) t.collect :: monitorLoop requestID (iteration + 1) rest

/-- `handleSystemMonitorStream`: empty duration/interval strings default to
"30s"/"2s"; `durOk`/`intOk` are the `time.ParseDuration` outcomes on the
defaulted strings (the parser is external to the core); a parse failure is
a synchronous error and the loop never starts. -/
def handleSystemMonitorStream (requestID : JId) (durationStr intervalStr : String)
    (durOk intOk : Bool) (ticks : List TickObs) : List MonitorEvent :=
  let durationStr := if durationStr = "" then "30s" else durationStr
  let intervalStr := if intervalStr = "" then "2s" else intervalStr
  if ¬durOk then [.invalidDuration]
  else if ¬intOk then [.invalidInterval]
  else .start durationStr intervalStr :: monitorLoop requestID 0 ticks

/-- Spec-side description of the progress notifications a run emits for the
pre-deadline ticks, starting after iteration `n`. -/
def progressEvents (n : Nat) : List TickObs → List MonitorEvent
  | [] => []
  | t :: rest => .progress (n + 1) t.collect :: progressEvents (n + 1) rest

end MCPv2

namespace Tools

/-- One observation of the buffered runner's select loop
(`SystemMonitorStreamHandler` in `handlers/tools.go`): either the
invoking context was cancelled, or the ticker fired (with the deadline
flag and that tick's collector outcome). -/
inductive RunnerObs
  | cancelled
  | tick (afterDeadline : Bool) (collect : Except String String)
deriving DecidableEq, Repr

/-- A tool invocation result: plain text or an error result. -/
inductive ToolResult
  | text (s : String)
  | error (s : String)
deriving DecidableEq, Repr

/-- `joinResults`: concatenates the accumulated stream lines. -/
def joinResults (results : List String) : String := String.join results

/-- The line appended on context cancellation. -/
def cancelMark : String := "❌ Stream cancelled by context\n"

/-- The line appended when the duration expires. -/
def completeMark : String := "✅ Stream completed successfully\n"

/-- The line appended for a failed sample. -/
def errLine (iteration : Nat) (e : String) : String :=
  "❌ Error at iteration " ++ toString iteration ++ ": " ++ e ++ "\n"

/-- The block appended for a successful sample; the timestamp and the
formatted cpu/memory text are folded into the collaborator string `s`. -/
def sampleBlock (iteration : Nat) (s : String) : String :=
  "📈 Sample #" ++ toString iteration ++ s

/-- The select loop of `SystemMonitorStreamHandler`: cancellation appends
the cancel line and returns; a deadline tick appends the completion line
and returns; other ticks append one sample or error line each and
continue.  `none` means the observation trace ran out with the loop still
waiting. -/
def monitorRunnerLoop : Nat → List String → List RunnerObs → Option (List String)
  | _, _, [] => none
  | _, acc, .cancelled :: _ => some (acc ++ [cancelMark])
  | _, acc, .tick true _ :: _ => some (acc ++ [completeMark])
  | iteration, acc, .tick false c :: rest =>
    match c with
    | .error e => monitorRunnerLoop (iteration + 1) (acc ++ [errLine (iteration + 1) e]) rest
    | .ok s => monitorRunnerLoop (iteration + 1) (acc ++ [sampleBlock (iteration + 1) s]) rest

/-- The three banner lines pushed before the loop starts; the duration and
interval render of `fmt.Sprintf("⏱️  Duration: %v, Interval: %v\n", ...)`
is taken on the defaulted strings. -/
def bannerLines (durationStr intervalStr : String) : List String :=
  ["🔄 System Monitor Stream Started\n",
   "⏱️  Duration: " ++ durationStr ++ ", Interval: " ++ intervalStr ++ "\n",
   "📊 Collecting data...\n\n"]

/-- `SystemMonitorStreamHandler`: defaults, parse checks (`durOk`/`intOk`
are the `time.ParseDuration` outcomes; the parse-error text is abstracted
to the offending string), then the banner and the loop; the loop's final
line list is joined into one text result. -/
def SystemMonitorStreamHandler (durationStr intervalStr : String)
    (durOk intOk : Bool) (obs : List RunnerObs) : Option ToolResult :=
  let durationStr := if durationStr = "" then "30s" else durationStr
  let intervalStr := if intervalStr = "" then "2s" else intervalStr
  if ¬durOk then some (.error ("Invalid duration format: " ++ durationStr))
  else if ¬intOk then some (.error ("Invalid interval format: " ++ intervalStr))
  else
    (monitorRunnerLoop 0 (bannerLines durationStr intervalStr) obs).map
      (fun rs => .text (joinResults rs))

/-- Spec-side description of the lines the loop appends for a run of
pre-deadline ticks, starting after iteration `n`. -/
def runnerLines (n : Nat) : List (Except String String) → List String
  | [] => []
  | .error e :: rest => errLine (n + 1) e :: runnerLines (n + 1) rest
  | .ok s :: rest => sampleBlock (n + 1) s :: runnerLines (n + 1) rest

end Tools

/-- C10: the streamable-era `initialize` handler answers the constant
protocol version `"2024-11-05"` whatever the request's params (including any
client-proposed `protocolVersion`), while the plain (non-SSE) GET endpoint
of the same server advertises protocol `"2025-03-26"` — and the two strings
differ. -/
theorem c10_protocol_version (α : Type) (c : Types.Clock) (st : MCPv1.HandlerState α)
    (msg : Message) :
    (MCPv1.handleInitializeRequest c st msg).1.payload
      = .result (.initResult "2024-11-05" "mcp-system-info" "1.0.0") ∧
    Streamable.HandleGet false
      = .info { status := "ok", message := "MCP System Info Server is running",
                version := "1.0.0", protocol := "2025-03-26", framework := "Fiber v2.52.8" } ∧
    ("2024-11-05" : String) ≠ "2025-03-26" := by
  exact ⟨rfl, rfl, by decide⟩

theorem dispatch_v1_isSome (α : Type) (c : Types.Clock) (collect : Except String String)
    (st : MCPv1.HandlerState α) (msg : Message) (sid : String) :
    (MCPv1.handleJSONRPCMessage c collect st msg sid).1.isSome
      = Streamable.respondedEntry msg := by
  rcases hm : msg.methodString with _ | m
  · simp [MCPv1.handleJSONRPCMessage, hm, Streamable.respondedEntry]
  · simp only [MCPv1.handleJSONRPCMessage, hm]
    by_cases h0 : m = "initialize"
    · rw [if_pos h0]
      simp [Streamable.respondedEntry, hm, h0]
    · rw [if_neg h0]
      have hresp : Streamable.respondedEntry msg = msg.id.isSome := by
        simp [Streamable.respondedEntry, hm, h0]
      rw [hresp]
      by_cases hid : msg.id.isSome = true
      · by_cases hs : (Types.GetSession st.sessions sid).isNone = true
        · rw [if_pos hs, if_pos hid]; simp [hid]
        · rw [if_neg hs]
          by_cases h1 : m = "tools/list"
          · rw [if_pos h1, if_pos hid]; simp [hid]
          · rw [if_neg h1]
            by_cases h2 : m = "tools/call"
            · rw [if_pos h2, if_pos hid]; simp [hid]
            · rw [if_neg h2, if_pos hid]; simp [hid]
      · have hid' : msg.id.isSome = false := by simpa using hid
        by_cases hs : (Types.GetSession st.sessions sid).isNone = true
        · rw [if_pos hs, if_neg hid]; simp [hid']
        · rw [if_neg hs]
          by_cases h1 : m = "tools/list"
          · rw [if_pos h1, if_neg hid]; simp [hid']
          · rw [if_neg h1]
            by_cases h2 : m = "tools/call"
            · rw [if_pos h2, if_neg hid]; simp [hid']
            · rw [if_neg h2, if_neg hid]; simp [hid']

theorem dispatch_v1_some_id (α : Type) (c : Types.Clock) (collect : Except String String)
    (st : MCPv1.HandlerState α) (msg : Message) (sid : String) (r : Response)
    (h : (MCPv1.handleJSONRPCMessage c collect st msg sid).1 = some r) :
    r.id = msg.reqId := by
  rcases hm : msg.methodString with _ | m
  · simp [MCPv1.handleJSONRPCMessage, hm] at h
  · simp only [MCPv1.handleJSONRPCMessage, hm] at h
    by_cases h0 : m = "initialize"
    · rw [if_pos h0] at h
      simp only [Option.some.injEq] at h
      rw [← h]
      rfl
    · rw [if_neg h0] at h
      by_cases hs : (Types.GetSession st.sessions sid).isNone = true
      · rw [if_pos hs] at h
        by_cases hid : msg.id.isSome = true
        · rw [if_pos hid] at h
          simp only [Option.some.injEq] at h
          rw [← h]
        · rw [if_neg hid] at h
          exact absurd h (by simp)
      · rw [if_neg hs] at h
        by_cases h1 : m = "tools/list"
        · rw [if_pos h1] at h
          by_cases hid : msg.id.isSome = true
          · rw [if_pos hid] at h
            simp only [Option.some.injEq] at h
            rw [← h]
            rfl
          · rw [if_neg hid] at h
            exact absurd h (by simp)
        · rw [if_neg h1] at h
          by_cases h2 : m = "tools/call"
          · rw [if_pos h2] at h
            by_cases hid : msg.id.isSome = true
            · rw [if_pos hid] at h
              simp only [Option.some.injEq] at h
              rw [← h, toolCall_id_v1]
            · rw [if_neg hid] at h
              exact absurd h (by simp)
          · rw [if_neg h2] at h
            by_cases hid : msg.id.isSome = true
            · rw [if_pos hid] at h
              simp only [Option.some.injEq] at h
              rw [← h]
            · rw [if_neg hid] at h
              exact absurd h (by simp)

theorem collectResponses_ids (α : Type) (c : Types.Clock)
    (collect : Except String String) (sid : String) (msgs : List Message) :
    ∀ (st : MCPv1.HandlerState α) (hdr : Option String),
    ((Streamable.collectResponses c collect sid st hdr msgs).1).map Response.id
      = (msgs.filter Streamable.respondedEntry).map Message.reqId := by
  induction msgs with
  | nil => intro st hdr; rfl
  | cons msg rest ih =>
    intro st hdr
    rcases hmk : msg.method with _ | _ | m
    · -- method key absent: skipped without dispatching
      have hre' : ¬ (Streamable.respondedEntry msg = true) := by
        simp [Streamable.respondedEntry, Message.methodString, hmk]
      simp only [Streamable.collectResponses]
      rw [if_neg (by simp [hmk, MethodKey.isPresent])]
      rw [List.filter_cons, if_neg hre']
      exact ih st hdr
    · -- method key present with a non-string value: counts as present, but
      -- the dispatcher's type assertion fails and no response is collected
      have hms : msg.methodString = none := by
        simp [Message.methodString, hmk]
      have hre' : ¬ (Streamable.respondedEntry msg = true) := by
        simp [Streamable.respondedEntry, hms]
      have hnil : MCPv1.handleJSONRPCMessage c collect st msg sid = (none, st) := by
        simp [MCPv1.handleJSONRPCMessage, hms]
      simp only [Streamable.collectResponses]
      rw [if_pos (by simp [hmk, MethodKey.isPresent])]
      simp only [hnil]
      rw [List.filter_cons, if_neg hre']
      exact ih st hdr
    · have hms : msg.methodString = some m := by
        simp [Message.methodString, hmk]
      have hd := dispatch_v1_isSome α c collect st msg sid
      rcases hr : (MCPv1.handleJSONRPCMessage c collect st msg sid).1 with _ | response
      · have hre : Streamable.respondedEntry msg = false := by
          rw [← hd, hr]; rfl
        have hre' : ¬ (Streamable.respondedEntry msg = true) := by simp [hre]
        simp only [Streamable.collectResponses]
        rw [if_pos (by simp [hmk, MethodKey.isPresent])]
        simp only [hr]
        rw [List.filter_cons, if_neg hre']
        exact ih _ hdr
      · have hre : Streamable.respondedEntry msg = true := by
          rw [← hd, hr]; rfl
        have hid := dispatch_v1_some_id α c collect st msg sid response hr
        simp only [Streamable.collectResponses]
        rw [if_pos (by simp [hmk, MethodKey.isPresent])]
        simp only [hr, hms, Option.getD_some]
        rw [List.filter_cons, if_pos hre]
        by_cases hinit : m = "initialize" ∧ response.isResult = true
        · rw [if_pos hinit]
          rcases hcell : (MCPv1.handleJSONRPCMessage c collect st msg sid).2.lastCreatedSessionID
            with _ | newID
          · simp only [hcell, List.map_cons]
            rw [ih _ hdr, hid]
          · simp only [hcell, List.map_cons]
            rw [ih _ (some newID)]
            simp [hid]
        · rw [if_neg hinit]
          simp only [List.map_cons]
          rw [ih _ hdr, hid]

/-- C5 (counterexample): in a batch holding one `tools/list` request and one
`initialize` NOTIFICATION (no id), a response is collected for the
notification as well: the handler answers with a two-element array although
the batch contains exactly one request. -/
theorem c5_notification_response_collected :
    ([(⟨.str "tools/list", some (.num 1), none⟩ : Message),
      ⟨.str "initialize", none, none⟩].countP
        (fun m => m.id.isSome && m.method.isPresent) = 1) ∧
    (Streamable.HandlePost (α := Unit) ⟨"20260101_000000_", fun _ => 0⟩ (.ok "info")
        true false
        [⟨.str "tools/list", some (.num 1), none⟩, ⟨.str "initialize", none, none⟩]
        "sess1" ⟨[("sess1", Types.NewSession Unit "sess1")], none⟩).1
      = .jsonArray
          [{ id := .num 1, payload := .result (.toolsList ["get_system_info"]) },
           { id := .null,
             payload := .result (.initResult "2024-11-05" "mcp-system-info" "1.0.0"),
             sessionId := some "session_20260101_000000_aaaaaaaa" }] := by
  decide

/-- C5 (amended): the batch classification counts as a request every entry
with both an `id` key and a `method` KEY (raw presence, whatever the method
value's type).  A batch with no such entry is answered 202 Accepted with no
body (each entry still passes through the dispatcher for its side effects);
in a batch with requests, responses are collected in input order for
exactly the entries whose method is a STRING that is `initialize` or is
accompanied by an id — string-method requests plus `initialize`
notifications; one collected response is returned as a bare object, two or
more as an array preserving that order; and when the request-classified
entries all have non-string methods nothing is collected and the body is
an EMPTY array (HTTP 200), not 202. -/
theorem c5_batch_post (α : Type) (c : Types.Clock) (collect : Except String String)
    (sid : String) (msgs : List Message) (st : MCPv1.HandlerState α) :
    (Streamable.hasRequests msgs = false →
      Streamable.HandlePost c collect true false msgs sid st
        = (.accepted, none, Streamable.processNotifications c collect sid st msgs)) ∧
    ((Streamable.collectResponses c collect sid st none msgs).1.map Response.id
      = (msgs.filter Streamable.respondedEntry).map Message.reqId) ∧
    (Streamable.hasRequests msgs = true →
      ∀ i1, (msgs.filter Streamable.respondedEntry).map Message.reqId = [i1] →
      ∃ r, (Streamable.HandlePost c collect true false msgs sid st).1 = .jsonSingle r ∧
        r.id = i1) ∧
    (Streamable.hasRequests msgs = true →
      ∀ i1 i2 irest, (msgs.filter Streamable.respondedEntry).map Message.reqId
          = i1 :: i2 :: irest →
      ∃ rs, (Streamable.HandlePost c collect true false msgs sid st).1 = .jsonArray rs ∧
        rs.map Response.id = i1 :: i2 :: irest) ∧
    (Streamable.hasRequests msgs = true →
      msgs.filter Streamable.respondedEntry = [] →
      (Streamable.HandlePost c collect true false msgs sid st).1 = .jsonArray []) := by
  have hids := collectResponses_ids α c collect sid msgs st none
  refine ⟨?_, hids, ?_, ?_, ?_⟩
  · intro hno
    simp only [Streamable.HandlePost]
    rw [if_neg (by simp), if_pos (by simp [hno])]
  · intro hyes i1 hone
    simp only [Streamable.HandlePost]
    rw [if_neg (by simp), if_neg (by simp [hyes]), if_pos hyes,
      if_neg (by simp)]
    have hlen : (Streamable.collectResponses c collect sid st none msgs).1.length = 1 := by
      have := congrArg List.length (hids.trans hone)
      simpa using this
    rcases List.length_eq_one.mp hlen with ⟨x, hx⟩
    rw [hx]
    refine ⟨x, rfl, ?_⟩
    rw [hx, hone] at hids
    simpa using hids
  · intro hyes i1 i2 irest htwo
    simp only [Streamable.HandlePost]
    rw [if_neg (by simp), if_neg (by simp [hyes]), if_pos hyes,
      if_neg (by simp)]
    rcases hx : (Streamable.collectResponses c collect sid st none msgs).1 with _ | ⟨a, tail⟩
    · rw [hx, htwo] at hids
      simp at hids
    · rcases tail with _ | ⟨b, tail2⟩
      · rw [hx, htwo] at hids
        simp at hids
      · refine ⟨a :: b :: tail2, rfl, ?_⟩
        rw [hx, htwo] at hids
        exact hids
  · intro hyes hempty
    simp only [Streamable.HandlePost]
    rw [if_neg (by simp), if_neg (by simp [hyes]), if_pos hyes,
      if_neg (by simp)]
    have hnilc : (Streamable.collectResponses c collect sid st none msgs).1 = [] := by
      rw [hempty] at hids
      simpa using hids
    rw [hnilc]

/-- C5 witness: a single `tools/list` request with id 4 in a batch of one is
answered as a bare object with id 4. -/
theorem c5_batch_post_witness :
    ∃ r, (Streamable.HandlePost (α := Unit) ⟨"s", fun _ => 0⟩ (.ok "info") true false
        [⟨.str "tools/list", some (.num 4), none⟩] "sess1"
        ⟨[("sess1", Types.NewSession Unit "sess1")], none⟩).1 = .jsonSingle r ∧
      r.id = .num 4 :=
  ((c5_batch_post Unit ⟨"s", fun _ => 0⟩ (.ok "info") "sess1"
      [⟨.str "tools/list", some (.num 4), none⟩]
      ⟨[("sess1", Types.NewSession Unit "sess1")], none⟩).2.2.1 (by decide)
    (.num 4) (by decide))

theorem monitorLoop_deadline (requestID : JId) (post : List MCPv2.TickObs)
    (t : MCPv2.TickObs) (ht : t.afterDeadline = true) :
    ∀ (pre : List MCPv2.TickObs) (n : Nat), (∀ u ∈ pre, u.afterDeadline = false) →
    MCPv2.monitorLoop requestID n (pre ++ t :: post)
      = MCPv2.progressEvents n pre ++ [.completed requestID (n + pre.length)] := by
  intro pre
  induction pre with
  | nil =>
    intro n _
    simp [MCPv2.monitorLoop, MCPv2.progressEvents, ht]
  | cons u rest ih =>
    intro n hpre
    have hu : u.afterDeadline = false := hpre u (by simp)
    simp only [List.cons_append, MCPv2.monitorLoop, MCPv2.progressEvents]
    rw [if_neg (by simp [hu])]
    simp only [List.append_eq]
    rw [ih (n + 1) (fun v hv => hpre v (by simp [hv]))]
    have harith : n + 1 + rest.length = n + (rest.length + 1) := by omega
    simp [harith]

theorem progressEvents_counts (n : Nat) (l : List MCPv2.TickObs) :
    (MCPv2.progressEvents n l).countP MCPv2.MonitorEvent.isProgress = l.length ∧
    (MCPv2.progressEvents n l).countP MCPv2.MonitorEvent.isCompleted = 0 ∧
    (MCPv2.progressEvents n l).length = l.length := by
  induction l generalizing n with
  | nil => simp [MCPv2.progressEvents]
  | cons t rest ih =>
    obtain ⟨h1, h2, h3⟩ := ih (n + 1)
    simp [MCPv2.progressEvents, List.countP_cons, h1, h2, h3,
      MCPv2.MonitorEvent.isProgress, MCPv2.MonitorEvent.isCompleted]

/-- C8: a run of the SSE streaming monitor with valid duration and interval
that reaches its deadline emits the start frame, then exactly one progress
notification per pre-deadline tick — carrying the 1-based iteration counter
and the tick's collector outcome (metrics on success, the error string on a
failed collection; a failure never stops the loop) — and at the deadline
tick exactly one terminal result whose `total_samples` equals the number of
progress notifications emitted. -/
theorem c8_monitor_stream (requestID : JId) (d i : String)
    (pre post : List MCPv2.TickObs) (t : MCPv2.TickObs)
    (hpre : ∀ u ∈ pre, u.afterDeadline = false) (ht : t.afterDeadline = true) :
    MCPv2.handleSystemMonitorStream requestID d i true true (pre ++ t :: post)
      = .start (if d = "" then "30s" else d) (if i = "" then "2s" else i)
        :: (MCPv2.progressEvents 0 pre ++ [.completed requestID pre.length]) ∧
    (MCPv2.progressEvents 0 pre).length = pre.length ∧
    (MCPv2.handleSystemMonitorStream requestID d i true true (pre ++ t :: post)).countP
        MCPv2.MonitorEvent.isProgress = pre.length ∧
    (MCPv2.handleSystemMonitorStream requestID d i true true (pre ++ t :: post)).countP
        MCPv2.MonitorEvent.isCompleted = 1 := by
  have hloop := monitorLoop_deadline requestID post t ht pre 0 hpre
  have hcounts := progressEvents_counts 0 pre
  have hrun : MCPv2.handleSystemMonitorStream requestID d i true true (pre ++ t :: post)
      = .start (if d = "" then "30s" else d) (if i = "" then "2s" else i)
        :: (MCPv2.progressEvents 0 pre ++ [.completed requestID pre.length]) := by
    simp only [MCPv2.handleSystemMonitorStream]
    rw [if_neg (by simp), if_neg (by simp), hloop]
    simp
  refine ⟨hrun, hcounts.2.2, ?_, ?_⟩
  · rw [hrun]
    simp [List.countP_cons, List.countP_append, hcounts.1,
      MCPv2.MonitorEvent.isProgress, MCPv2.MonitorEvent.isCompleted]
  · rw [hrun]
    simp [List.countP_cons, List.countP_append, hcounts.2.1,
      MCPv2.MonitorEvent.isProgress, MCPv2.MonitorEvent.isCompleted]

/-- C8 witness: a 2-tick run (one good sample, one failed collection)
reaching its deadline on the third tick. -/
theorem c8_monitor_stream_witness :
    MCPv2.handleSystemMonitorStream (.num 9) "4s" "1s" true true
        [⟨false, .ok "cpu 40"⟩, ⟨false, .error "boom"⟩, ⟨true, .ok "x"⟩]
      = [.start "4s" "1s", .progress 1 (.ok "cpu 40"), .progress 2 (.error "boom"),
         .completed (.num 9) 2] := by
  have h := (c8_monitor_stream (.num 9) "4s" "1s"
      [⟨false, .ok "cpu 40"⟩, ⟨false, .error "boom"⟩] [] ⟨true, .ok "x"⟩
      (by decide) rfl).1
  exact h.trans (by decide)

theorem runnerLoop_ticks (samples : List (Except String String)) :
    ∀ (n : Nat) (acc : List String) (tail : List Tools.RunnerObs),
    Tools.monitorRunnerLoop n acc (samples.map (Tools.RunnerObs.tick false) ++ tail)
      = Tools.monitorRunnerLoop (n + samples.length) (acc ++ Tools.runnerLines n samples)
          tail := by
  induction samples with
  | nil => intro n acc tail; simp [Tools.runnerLines]
  | cons s rest ih =>
    intro n acc tail
    rcases s with e | sv
    · simp only [List.map_cons, List.cons_append, Tools.monitorRunnerLoop,
        Tools.runnerLines]
      simp only [List.append_eq]
      rw [ih (n + 1) (acc ++ [Tools.errLine (n + 1) e]) tail]
      have harith : n + 1 + rest.length = n + (rest.length + 1) := by omega
      simp [harith]
    · simp only [List.map_cons, List.cons_append, Tools.monitorRunnerLoop,
        Tools.runnerLines]
      simp only [List.append_eq]
      rw [ih (n + 1) (acc ++ [Tools.sampleBlock (n + 1) sv]) tail]
      have harith : n + 1 + rest.length = n + (rest.length + 1) := by omega
      simp [harith]

/-- C9 (counterexample): the buffered monitor runner does NOT exit without
emitting anything further when its context is cancelled before the
deadline — it returns one more payload: the accumulated banner text plus
the cancellation marker line. -/
theorem c9_cancel_emits_payload :
    Tools.SystemMonitorStreamHandler "4s" "1s" true true [.cancelled]
      = some (.text (Tools.joinResults
          (Tools.bannerLines "4s" "1s" ++ [Tools.cancelMark]))) := by
  decide

/-- C9 (amended): when the invoking context is cancelled before the
deadline, the buffered monitor runner stops early — the observations after
the cancellation are never consumed — and it never emits the terminal
"completed" marker; but instead of emitting nothing further it returns one
final partial-result payload: everything accumulated so far plus the
"Stream cancelled by context" line.  (Only a deadline tick produces the
"completed" marker, and the two marker lines differ; the SSE streaming
variant of the monitor has no cancellation branch at all and runs to its
deadline.) -/
theorem c9_cancelled_run (d i : String) (samples : List (Except String String))
    (rest : List Tools.RunnerObs) (c : Except String String) :
    Tools.SystemMonitorStreamHandler d i true true
        (samples.map (Tools.RunnerObs.tick false) ++ .cancelled :: rest)
      = some (.text (Tools.joinResults
          (Tools.bannerLines (if d = "" then "30s" else d) (if i = "" then "2s" else i)
           ++ Tools.runnerLines 0 samples ++ [Tools.cancelMark]))) ∧
    Tools.SystemMonitorStreamHandler d i true true
        (samples.map (Tools.RunnerObs.tick false) ++ [.tick true c])
      = some (.text (Tools.joinResults
          (Tools.bannerLines (if d = "" then "30s" else d) (if i = "" then "2s" else i)
           ++ Tools.runnerLines 0 samples ++ [Tools.completeMark]))) ∧
    Tools.cancelMark ≠ Tools.completeMark := by
  refine ⟨?_, ?_, by decide⟩
  · simp only [Tools.SystemMonitorStreamHandler]
    rw [if_neg (by simp), if_neg (by simp)]
    rw [runnerLoop_ticks samples 0 _ (.cancelled :: rest)]
    simp [Tools.monitorRunnerLoop]
  · simp only [Tools.SystemMonitorStreamHandler]
    rw [if_neg (by simp), if_neg (by simp)]
    rw [runnerLoop_ticks samples 0 _ [.tick true c]]
    simp [Tools.monitorRunnerLoop]

end SystemInformationMCP
